import Mathlib

/-!
Verification of the pruning core of `src/main.py` (biprop).

Shallow embedding conventions:
* Tensors are flattened into `List ℚ`; Python floats are modelled as exact
  rationals (the source's arithmetic on `prune_rate` uses only `+ - * / **3`,
  so every quantity of interest is rational-valued).
* A "prunable layer" is a named module carrying a `prune_threshold` attribute
  (main.py line 620): its clamped score tensor, its weight tensor and the
  stored global threshold.
* Raising an exception is modelled with `Except`.
* Runs are modelled from epoch 0 (`args.start_epoch or 0`, main.py line 142,
  for a run without `--resume`).
-/

namespace Biprop

/-- A prunable layer of the model: a named module that carries a
`prune_threshold` attribute (main.py line 620).  `scores` is the flattened
`clamped_scores` tensor, `weight` the flattened weight tensor of the same
shape, `prune_threshold` the stored shared global threshold. -/
structure Layer where
  name : String
  scores : List ℚ
  weight : List ℚ
  prune_threshold : ℚ

/-- Modelled from the spec: `GetGlobalSubnet.apply(scores, weights, k)` is
defined in `utils/conv_type.py`, which is not among the given sources.  Per
spec section 4.2 each layer's mask is `|score_i| >= t` elementwise for the
shared global threshold `t`, and per section 4.1 the forward value is the
keep/drop decision applied to the layer's weights, so the output is the
elementwise masked weight tensor (main.py line 627 binds it to `w` and
counts its nonzeros as "number of unpruned weights in layer"). -/
def GetGlobalSubnet (scores weights : List ℚ) (t : ℚ) : List ℚ :=
  List.zipWith (fun s w => if t ≤ |s| then w else 0) scores weights

/-- `torch.count_nonzero` on a flattened tensor. -/
def countNonzero : List ℚ → ℕ
  | [] => 0
  | x :: xs => (if x = 0 then 0 else 1) + countNonzero xs

/-- The mask exactly as the spec words it (section 4.2): `|score_i| >= t`
elementwise, `1` = keep, `0` = drop.  This is the spec-side definition used
to compare the report of `global_prune_rate` against the claims. -/
def specMask (scores : List ℚ) (t : ℚ) : List ℚ :=
  scores.map (fun s => if t ≤ |s| then (1 : ℚ) else 0)

/-- Accumulator of the layer walk in `global_prune_rate`
(main.py lines 615-638): running totals and the prune-rate dictionary. -/
structure WalkAcc where
  total_weights : ℕ
  unpruned_weights : ℕ
  prune_dict : List (String × ℚ)

/-- The loop of `global_prune_rate` over all prunable layers
(main.py lines 617-638).  For each layer it takes a detached copy of the
clamped scores, computes `w = GetGlobalSubnet(scores, weight, prune_threshold)`,
counts its nonzeros as the layer's unpruned weights, records
`100 * (1 - unpruned/total)` in the dictionary under the layer's name, and
accumulates the totals.  The second component is the model as the walk
leaves it: the loop body only reads (`clone().detach()`), so each layer is
re-emitted unchanged. -/
def gprWalk : List Layer → WalkAcc × List Layer
  | [] => (⟨0, 0, []⟩, [])
  | L :: rest =>
    let layer_total := L.scores.length
    let w := GetGlobalSubnet L.scores L.weight L.prune_threshold
    let layer_unpruned := countNonzero w
    let layer_prune_rate : ℚ := 1 - (layer_unpruned : ℚ) / (layer_total : ℚ)
    let step := gprWalk rest
    (⟨layer_total + step.1.total_weights,
      layer_unpruned + step.1.unpruned_weights,
      (L.name, 100 * layer_prune_rate) :: step.1.prune_dict⟩,
     L :: step.2)

/-- `global_prune_rate(model, args)` (main.py lines 609-650): walks the
prunable layers, computes `final_prune_rate = 1 - unpruned/total` over the
accumulated counts, and returns `(1 - final_prune_rate, prune_dict)`. -/
def global_prune_rate (m : List Layer) : ℚ × List (String × ℚ) :=
  let acc := (gprWalk m).1
  let final_prune_rate : ℚ := 1 - (acc.unpruned_weights : ℚ) / (acc.total_weights : ℚ)
  (1 - final_prune_rate, acc.prune_dict)

/-- Sum of total element counts across all prunable layers. -/
def totalWeights (m : List Layer) : ℕ :=
  (m.map (fun L => L.scores.length)).sum

/-- Sum across layers of the nonzero counts of the masked weight tensors,
exactly the counts `global_prune_rate` accumulates. -/
def unprunedWeights (m : List Layer) : ℕ :=
  (m.map (fun L => countNonzero (GetGlobalSubnet L.scores L.weight L.prune_threshold))).sum

/-- Sum across layers of the nonzero counts of the spec-side masks. -/
def maskNonzeroSum (m : List Layer) : ℕ :=
  (m.map (fun L => countNonzero (specMask L.scores L.prune_threshold))).sum

/-- The per-layer prune rate as `global_prune_rate` computes it
(main.py line 631). -/
def layerPruneRate (L : Layer) : ℚ :=
  1 - (countNonzero (GetGlobalSubnet L.scores L.weight L.prune_threshold) : ℚ)
      / (L.scores.length : ℚ)

/-- The prune-rate annealing step of `main_worker` (main.py lines 182-190),
as a function of `args.conv_type`, `args.prune_rate_epoch`,
`final_prune_rate` (`args.prune_rate` captured at line 175), the epoch and
the current value of `args.prune_rate`.  `0.5` is the exact rational `1/2`;
`prune_decay = (1 - epoch/prune_rate_epoch)^3` and
`curr_prune_rate = (1-final) + ((0.5 - (1-final))*prune_decay)` are inlined. -/
def annealRate (conv_type : String) (prune_rate_epoch : ℕ) (final_prune_rate : ℚ)
    (epoch : ℕ) (prune_rate : ℚ) : ℚ :=
  if conv_type = "GlobalSubnetConv" ∧ epoch < prune_rate_epoch then
    if prune_rate ≤ 1/2 then
      1 - ((1 - final_prune_rate)
            + ((1/2 - (1 - final_prune_rate))
                * (1 - (epoch : ℚ) / (prune_rate_epoch : ℚ)) ^ 3))
    else prune_rate
  else if conv_type = "GlobalSubnetConv" ∧ epoch = prune_rate_epoch then
    final_prune_rate
  else prune_rate

/-- The mutable state touched by the training loop that the annealing step
can see: the process-wide `args.prune_rate` and the model. -/
structure RunState where
  prune_rate : ℚ
  model : List Layer

/-- The annealing step acting on the run state: main.py lines 182-190 read
and assign only `args.prune_rate`. -/
def annealStep (ct : String) (E : ℕ) (f : ℚ) (epoch : ℕ) (s : RunState) : RunState :=
  { s with prune_rate := annealRate ct E f epoch s.prune_rate }

/-- Net effect of one epoch of the loop on `args.prune_rate`: the annealing
step (lines 182-190), then — only in `SampleSubnetConv` mode — the
overwrite `args.prune_rate = sum_pr / count` with the measured average
sampled prune rate (lines 291-311), supplied by the oracle `sp`. -/
def epochRate (ct : String) (E : ℕ) (f : ℚ) (sp : ℕ → ℚ) (e : ℕ) (r : ℚ) : ℚ :=
  if ct = "SampleSubnetConv" then sp e else annealRate ct E f e r

/-- `args.prune_rate` at the end of epoch `e` of a run starting at epoch 0,
where `f` is the user-configured rate (so also `final_prune_rate`, line 175)
and `sp` the sampled-average oracle.  In global mode no sample overwrite
happens, so this is also the value set by the annealer for epoch `e` and
consumed by epoch `e`'s training. -/
def pruneRateSeq (ct : String) (E : ℕ) (f : ℚ) (sp : ℕ → ℚ) : ℕ → ℚ
  | 0 => epochRate ct E f sp 0 f
  | e + 1 => epochRate ct E f sp (e + 1) (pruneRateSeq ct E f sp e)

/-- The prune-rate validation in `get_model` (main.py lines 456-466): for
conv types other than `DenseConv`, `SampleSubnetConv` and
`ContinuousSparseConv`, a negative `args.prune_rate` raises
`ValueError("Need to set a positive prune rate")`; otherwise model
construction proceeds (model assembly itself is collaborator plumbing,
spec section 1). -/
def get_model (conv_type : String) (prune_rate : ℚ) : Except String Unit :=
  if conv_type ≠ "DenseConv" ∧ conv_type ≠ "SampleSubnetConv"
      ∧ conv_type ≠ "ContinuousSparseConv" then
    if prune_rate < 0 then Except.error "Need to set a positive prune rate"
    else Except.ok ()
  else Except.ok ()

/-- What the end-of-run code hands to persistence (main.py lines 318-348):
`pickled` is the prune-rate dictionary written to
`global_prune_rate_dictionary.pkl` (`none` outside global mode),
`csv_prune_rate` is the value written in the CSV row's prune-rate column
(`prune_rate=args.prune_rate`, line 335), and `global_pr` is the local
variable of the same name, which is only printed, never persisted. -/
structure FinalOutput where
  pickled : Option (List (String × ℚ))
  csv_prune_rate : ℚ
  global_pr : ℚ

/-- End-of-run finalization (main.py lines 318-348): in global mode call
`global_prune_rate` once, pickle its dictionary, and write the CSV row with
`args.prune_rate`; otherwise set `global_pr = args.prune_rate` and only
write the CSV row. -/
def finalizeRun (ct : String) (model : List Layer) (args_prune_rate : ℚ) : FinalOutput :=
  if ct = "GlobalSubnetConv" then
    let res := global_prune_rate model
    { pickled := some res.2, csv_prune_rate := args_prune_rate, global_pr := res.1 }
  else
    { pickled := none, csv_prune_rate := args_prune_rate, global_pr := args_prune_rate }

/-- The per-epoch loop state relevant to early termination:
`args.prune_rate` and `best_acc1`. -/
structure LoopState where
  prune_rate : ℚ
  best_acc1 : ℚ

/-- One iteration of the epoch loop (main.py lines 179-316) for epoch `e`:
update `best_acc1 = max(acc1, best_acc1)` with the epoch's validation
accuracy `acc e`, raise `SystemExit` (modelled as `Except.error e`) when
`best_acc1 < 2 and epoch > 1` (line 218), otherwise carry the updated
prune rate and best accuracy to the next epoch. -/
def runEpoch (ct : String) (E : ℕ) (f : ℚ) (sp acc : ℕ → ℚ) (e : ℕ)
    (s : LoopState) : Except ℕ LoopState :=
  if max (acc e) s.best_acc1 < 2 ∧ 1 < e then Except.error e
  else Except.ok ⟨epochRate ct E f sp e s.prune_rate, max (acc e) s.best_acc1⟩

/-- Run epochs `0, 1, ..., n-1` from the initial state
(`args.prune_rate = f`, `best_acc1 = 0.0`, main.py lines 109 and 175). -/
def runUpTo (ct : String) (E : ℕ) (f : ℚ) (sp acc : ℕ → ℚ) : ℕ → Except ℕ LoopState
  | 0 => Except.ok ⟨f, 0⟩
  | n + 1 => (runUpTo ct E f sp acc n).bind (runEpoch ct E f sp acc n)

/-- Outcome of a run: `earlyExit e` models the `SystemExit` raised at epoch
`e`, which skips everything after the loop (no sparsity report, no pickle,
no CSV row); `completed` carries what finalization hands to persistence. -/
inductive RunResult where
  | earlyExit : ℕ → RunResult
  | completed : FinalOutput → RunResult

/-- `main_worker` for a fresh run (start epoch 0): run `epochs` epochs, then
finalize (main.py lines 179-348).  `model` is the model as training left it. -/
def main_worker (ct : String) (E : ℕ) (f : ℚ) (sp acc : ℕ → ℚ) (epochs : ℕ)
    (model : List Layer) : RunResult :=
  match runUpTo ct E f sp acc epochs with
  | Except.error e => RunResult.earlyExit e
  | Except.ok s => RunResult.completed (finalizeRun ct model s.prune_rate)

/-- Best validation top-1 accuracy after epochs `0, ..., n-1`
(`best_acc1` starts at `0.0`, main.py line 109). -/
def bestAfter (acc : ℕ → ℚ) : ℕ → ℚ
  | 0 => 0
  | n + 1 => max (acc n) (bestAfter acc n)

/-- Concrete one-layer model: four scores, threshold `3/2`, so three of the
four weights are kept. -/
def exLayer : Layer := ⟨"conv1", [1, 2, 3, 4], [1, 1, 1, 1], 3/2⟩

/-- Concrete one-layer model used in counterexamples and witnesses. -/
def exModel : List Layer := [exLayer]

/-- Two-layer model: layer "a" keeps 1 of 2 weights, layer "b" keeps 3 of 4. -/
def exModel2 : List Layer :=
  [⟨"a", [1, 2], [1, 1], 3/2⟩, ⟨"b", [1, 2, 3, 4], [1, 1, 1, 1], 3/2⟩]

/-- Layer whose single kept weight is exactly zero. -/
def zLayer : Layer := ⟨"z", [2], [0], 1⟩

/-! ### Bridging lemmas for the sparsity walk -/

lemma gprWalk_total (m : List Layer) : (gprWalk m).1.total_weights = totalWeights m := by
  induction m with
  | nil => rfl
  | cons L rest ih => simp [gprWalk, ih, totalWeights]

lemma gprWalk_unpruned (m : List Layer) :
    (gprWalk m).1.unpruned_weights = unprunedWeights m := by
  induction m with
  | nil => rfl
  | cons L rest ih => simp [gprWalk, ih, unprunedWeights]

lemma gprWalk_dict (m : List Layer) :
    (gprWalk m).1.prune_dict = m.map (fun L => (L.name, 100 * layerPruneRate L)) := by
  induction m with
  | nil => rfl
  | cons L rest ih => simp [gprWalk, ih, layerPruneRate]

lemma gprWalk_model (m : List Layer) : (gprWalk m).2 = m := by
  induction m with
  | nil => rfl
  | cons L rest ih => simp [gprWalk, ih]

lemma global_prune_rate_fst (m : List Layer) :
    (global_prune_rate m).1
      = 1 - (1 - (unprunedWeights m : ℚ) / (totalWeights m : ℚ)) := by
  rw [global_prune_rate]
  simp [gprWalk_total, gprWalk_unpruned]

lemma global_prune_rate_snd (m : List Layer) :
    (global_prune_rate m).2 = m.map (fun L => (L.name, 100 * layerPruneRate L)) := by
  rw [global_prune_rate]
  simp [gprWalk_dict]

/-! ### Helper lemmas for the annealing schedule -/

lemma global_ne_sample : "GlobalSubnetConv" ≠ "SampleSubnetConv" := by decide

lemma epochRate_global (E : ℕ) (f : ℚ) (sp : ℕ → ℚ) (e : ℕ) (r : ℚ) :
    epochRate "GlobalSubnetConv" E f sp e r = annealRate "GlobalSubnetConv" E f e r := by
  rw [epochRate, if_neg global_ne_sample]

lemma annealRate_global_lt (E : ℕ) (f r : ℚ) (e : ℕ) (he : e < E) (hr : r ≤ 1/2) :
    annealRate "GlobalSubnetConv" E f e r
      = f + (1/2 - f) * (1 - (e : ℚ) / (E : ℚ)) ^ 3 := by
  rw [annealRate, if_pos ⟨rfl, he⟩, if_pos hr]
  ring

lemma formula_le_half (E : ℕ) (f : ℚ) (e : ℕ) (hf : f ≤ 1/2) (he : e < E) :
    f + (1/2 - f) * (1 - (e : ℚ) / (E : ℚ)) ^ 3 ≤ 1/2 := by
  have hE : (0 : ℚ) < (E : ℚ) := by
    exact_mod_cast Nat.pos_of_ne_zero (by omega)
  have heE : (e : ℚ) / (E : ℚ) ≤ 1 := by
    rw [div_le_one hE]
    exact_mod_cast Nat.le_of_lt he
  have h0 : (0 : ℚ) ≤ (e : ℚ) / (E : ℚ) :=
    div_nonneg (by positivity) (le_of_lt hE)
  have hbase0 : (0 : ℚ) ≤ 1 - (e : ℚ) / (E : ℚ) := by linarith
  have hbase1 : 1 - (e : ℚ) / (E : ℚ) ≤ 1 := by linarith
  have hd1 : (1 - (e : ℚ) / (E : ℚ)) ^ 3 ≤ 1 := pow_le_one₀ hbase0 hbase1
  have := mul_le_mul_of_nonneg_left hd1 (by linarith : (0 : ℚ) ≤ 1/2 - f)
  linarith

lemma globalSeq_formula (E : ℕ) (f : ℚ) (sp : ℕ → ℚ) (hf : f ≤ 1/2) :
    ∀ e, e < E → pruneRateSeq "GlobalSubnetConv" E f sp e
      = f + (1/2 - f) * (1 - (e : ℚ) / (E : ℚ)) ^ 3 := by
  intro e
  induction e with
  | zero =>
    intro h0
    rw [pruneRateSeq, epochRate_global, annealRate_global_lt E f f 0 h0 hf]
  | succ e ih =>
    intro hsucc
    have he : e < E := Nat.lt_of_succ_lt hsucc
    have hval := ih he
    have hbound : pruneRateSeq "GlobalSubnetConv" E f sp e ≤ 1/2 := by
      rw [hval]; exact formula_le_half E f e hf he
    rw [pruneRateSeq, epochRate_global,
        annealRate_global_lt E f _ (e + 1) hsucc hbound]

lemma globalSeq_at_end (E : ℕ) (f : ℚ) (sp : ℕ → ℚ) (hE : 1 ≤ E) :
    pruneRateSeq "GlobalSubnetConv" E f sp E = f := by
  obtain ⟨k, rfl⟩ : ∃ k, E = k + 1 := ⟨E - 1, (Nat.succ_pred_eq_of_pos hE).symm⟩
  rw [pruneRateSeq, epochRate_global, annealRate,
      if_neg (by simp), if_pos ⟨rfl, rfl⟩]

/-! ### Claim theorems -/

/-- C1: in global pruning mode (`conv_type = "GlobalSubnetConv"`) with
`finalTargetRate ≤ 0.5`, for every epoch `0 ≤ e < annealEpochs` the
effective prune-rate variable set for that epoch equals
`finalTargetRate + (0.5 - finalTargetRate) * d` with
`d = (1 - e/annealEpochs)^3`; in particular at epoch 0 it equals exactly
`0.5`. -/
theorem C1_anneal_formula (E : ℕ) (f : ℚ) (sp : ℕ → ℚ) (e : ℕ)
    (hf : f ≤ 1/2) (he : e < E) :
    pruneRateSeq "GlobalSubnetConv" E f sp e
        = f + (1/2 - f) * (1 - (e : ℚ) / (E : ℚ)) ^ 3 ∧
    pruneRateSeq "GlobalSubnetConv" E f sp 0 = 1/2 := by
  constructor
  · exact globalSeq_formula E f sp hf e he
  · have h0 : 0 < E := lt_of_le_of_lt (Nat.zero_le e) he
    rw [globalSeq_formula E f sp hf 0 h0]
    norm_num

/-- Witness for C1 at `annealEpochs = 10`, `finalTargetRate = 3/10`,
epoch 0: the annealed rate starts at exactly `1/2`. -/
theorem C1_anneal_formula_witness :
    pruneRateSeq "GlobalSubnetConv" 10 (3/10) (fun _ => 0) 0 = 1/2 :=
  (C1_anneal_formula 10 (3/10) (fun _ => 0) 0 (by norm_num) (by norm_num)).2

/-- C3: in global pruning mode with `finalTargetRate ≤ 0.5` and
`annealEpochs ≥ 1`, the sequence of effective targets is monotonically
non-increasing over epochs `0 .. annealEpochs`, and at
`epoch = annealEpochs` the target is set exactly to `finalTargetRate`. -/
theorem C3_anneal_monotone (E : ℕ) (f : ℚ) (sp : ℕ → ℚ)
    (hf : f ≤ 1/2) (hE : 1 ≤ E) :
    (∀ e, e < E → pruneRateSeq "GlobalSubnetConv" E f sp (e + 1)
        ≤ pruneRateSeq "GlobalSubnetConv" E f sp e) ∧
    pruneRateSeq "GlobalSubnetConv" E f sp E = f := by
  have hE0 : (0 : ℚ) < (E : ℚ) := by exact_mod_cast Nat.pos_of_ne_zero (by omega)
  refine ⟨?_, globalSeq_at_end E f sp hE⟩
  intro e he
  have hval := globalSeq_formula E f sp hf e he
  have hd0 : (0 : ℚ) ≤ 1 - (e : ℚ) / (E : ℚ) := by
    have : (e : ℚ) / (E : ℚ) ≤ 1 := by
      rw [div_le_one hE0]; exact_mod_cast Nat.le_of_lt he
    linarith
  rcases Nat.lt_or_ge (e + 1) E with hs | hs
  · have hval' := globalSeq_formula E f sp hf (e + 1) hs
    rw [hval, hval']
    have hd0' : (0 : ℚ) ≤ 1 - ((e : ℚ) + 1) / (E : ℚ) := by
      have : ((e : ℚ) + 1) / (E : ℚ) ≤ 1 := by
        rw [div_le_one hE0]; exact_mod_cast Nat.le_of_lt hs
      linarith
    have hle : 1 - ((e : ℚ) + 1) / (E : ℚ) ≤ 1 - (e : ℚ) / (E : ℚ) := by
      have : (e : ℚ) / (E : ℚ) ≤ ((e : ℚ) + 1) / (E : ℚ) :=
        div_le_div_of_nonneg_right (by linarith) (le_of_lt hE0)
      linarith
    have hpow : (1 - ((e : ℚ) + 1) / (E : ℚ)) ^ 3
        ≤ (1 - (e : ℚ) / (E : ℚ)) ^ 3 := by
      exact pow_le_pow_left₀ hd0' hle 3
    have := mul_le_mul_of_nonneg_left hpow (by linarith : (0 : ℚ) ≤ 1/2 - f)
    push_cast
    linarith
  · have heq : e + 1 = E := le_antisymm (Nat.succ_le_of_lt he) hs
    rw [heq, globalSeq_at_end E f sp hE, hval]
    have hpow : (0 : ℚ) ≤ (1 - (e : ℚ) / (E : ℚ)) ^ 3 := by positivity
    nlinarith

/-- Witness for C3 at `annealEpochs = 10`, `finalTargetRate = 3/10`:
the rate at epoch 10 is exactly `3/10`. -/
theorem C3_anneal_monotone_witness :
    pruneRateSeq "GlobalSubnetConv" 10 (3/10) (fun _ => 0) 10 = 3/10 :=
  (C3_anneal_monotone 10 (3/10) (fun _ => 0) (by norm_num) (by norm_num)).2

/-- C4 fails as stated: `SampleSubnetConv` is a non-global pruning mode, yet
the loop overwrites `args.prune_rate` each epoch with the measured average
sampled prune rate (main.py lines 291-311).  With the user-configured rate
`3/4` and a sampled average of `1/4`, the rate at epoch 1 is `1/4 ≠ 3/4`. -/
theorem C4_counterexample :
    pruneRateSeq "SampleSubnetConv" 10 (3/4) (fun _ => 1/4) 1 = 1/4 ∧
    (1/4 : ℚ) ≠ 3/4 := by
  constructor
  · rw [pruneRateSeq, epochRate, if_pos rfl]
  · norm_num

/-- C4 (amended): for runs in global mode with `finalTargetRate > 0.5`, and
for runs in a non-global mode other than `SampleSubnetConv`, the target
prune rate stays constant at the user-configured value at every epoch
(in `SampleSubnetConv` mode it is overwritten each epoch with the measured
average sampled prune rate). -/
theorem C4_rate_constant (ct : String) (E : ℕ) (f : ℚ) (sp : ℕ → ℚ) (e : ℕ)
    (h : (ct = "GlobalSubnetConv" ∧ 1/2 < f)
        ∨ (ct ≠ "GlobalSubnetConv" ∧ ct ≠ "SampleSubnetConv")) :
    pruneRateSeq ct E f sp e = f := by
  have hsample : ct ≠ "SampleSubnetConv" := by
    rcases h with ⟨hct, _⟩ | ⟨_, hs⟩
    · rw [hct]; decide
    · exact hs
  have hstep : ∀ k, annealRate ct E f k f = f := by
    intro k
    rw [annealRate]
    rcases h with ⟨hct, hgt⟩ | ⟨hct, _⟩
    · by_cases hk : k < E
      · rw [if_pos ⟨hct, hk⟩, if_neg (by linarith)]
      · by_cases hk' : k = E
        · rw [if_neg (by tauto), if_pos ⟨hct, hk'⟩]
        · rw [if_neg (by tauto), if_neg (by tauto)]
    · rw [if_neg (by tauto), if_neg (by tauto)]
  induction e with
  | zero => rw [pruneRateSeq, epochRate, if_neg hsample, hstep 0]
  | succ e ih => rw [pruneRateSeq, epochRate, if_neg hsample, ih, hstep (e + 1)]

/-- Witness for the amended C4: in `DenseConv` mode with configured rate
`3/10` the rate is still `3/10` at epoch 5. -/
theorem C4_rate_constant_witness :
    pruneRateSeq "DenseConv" 10 (3/10) (fun _ => 0) 5 = 3/10 :=
  C4_rate_constant "DenseConv" 10 (3/10) (fun _ => 0) 5
    (Or.inr ⟨by decide, by decide⟩)

/-- C5 fails as stated: the rate `2` lies outside `[0,1]`, yet `get_model`
in `GlobalSubnetConv` mode (a mode where the validation does run) raises
nothing — main.py lines 463-464 only reject negative rates. -/
theorem C5_counterexample :
    get_model "GlobalSubnetConv" 2 = Except.ok () ∧ ¬ ((2 : ℚ) ≤ 1) := by
  constructor
  · rw [get_model, if_pos ⟨by decide, by decide, by decide⟩, if_neg (by norm_num)]
  · norm_num

/-- C5 (amended): only negative configured rates are rejected at model
construction, and only for pruning modes other than `DenseConv`,
`SampleSubnetConv` and `ContinuousSparseConv`; for those a `ValueError`
is raised at setup, before any training step. -/
theorem C5_negative_rate_rejected (ct : String) (pr : ℚ)
    (h1 : ct ≠ "DenseConv") (h2 : ct ≠ "SampleSubnetConv")
    (h3 : ct ≠ "ContinuousSparseConv") (hpr : pr < 0) :
    get_model ct pr = Except.error "Need to set a positive prune rate" := by
  rw [get_model, if_pos ⟨h1, h2, h3⟩, if_pos hpr]

/-- Witness for the amended C5: a negative rate in global mode is rejected. -/
theorem C5_negative_rate_rejected_witness :
    get_model "GlobalSubnetConv" (-1) = Except.error "Need to set a positive prune rate" :=
  C5_negative_rate_rejected "GlobalSubnetConv" (-1)
    (by decide) (by decide) (by decide) (by norm_num)

/-- C9: the annealing step (main.py lines 182-190) mutates only
`args.prune_rate`; in global mode at any epoch `e ≤ annealEpochs` it leaves
the model — every layer's score tensor, weight tensor and threshold, hence
every derived mask — unchanged. -/
theorem C9_anneal_frame (ct : String) (E : ℕ) (f : ℚ) (e : ℕ) (s : RunState)
    (hct : ct = "GlobalSubnetConv") (he : e ≤ E) :
    (annealStep ct E f e s).model = s.model := rfl

/-- Witness for C9 on a concrete run state. -/
theorem C9_anneal_frame_witness :
    (annealStep "GlobalSubnetConv" 10 (3/10) 0 ⟨3/10, exModel⟩).model = exModel :=
  C9_anneal_frame "GlobalSubnetConv" 10 (3/10) 0 ⟨3/10, exModel⟩ rfl (by omega)

/-- C2 fails as stated: on a one-layer model with four weights of which
three survive the threshold, the aggregate value returned by
`global_prune_rate` is `3/4` — the kept fraction — while
`1 - (sum of nonzero counts / sum of totals)` is `1/4`. -/
theorem C2_counterexample :
    (global_prune_rate exModel).1 = 3/4 ∧
    1 - (maskNonzeroSum exModel : ℚ) / (totalWeights exModel : ℚ) = 1/4 ∧
    (3/4 : ℚ) ≠ 1/4 := by
  refine ⟨?_, ?_, by norm_num⟩
  · rw [global_prune_rate_fst]
    norm_num [unprunedWeights, totalWeights, exModel, exLayer,
      GetGlobalSubnet, countNonzero]
  · norm_num [maskNonzeroSum, totalWeights, specMask, countNonzero,
      exModel, exLayer]

/-- C2 (amended): the aggregate value returned by `global_prune_rate`
equals `(sum of nonzero counts across layers) / (sum of total element
counts)`, i.e. the fraction of weights kept; the pruned fraction
`1 - kept` is computed internally as `final_prune_rate` (main.py line 643)
but the function returns its complement `1 - final_prune_rate` (line 650). -/
theorem C2_aggregate_is_keep_fraction (m : List Layer) (h : 0 < totalWeights m) :
    (global_prune_rate m).1 = (unprunedWeights m : ℚ) / (totalWeights m : ℚ) := by
  rw [global_prune_rate_fst]
  ring

/-- Witness for the amended C2 on the concrete one-layer model. -/
theorem C2_aggregate_is_keep_fraction_witness :
    (global_prune_rate exModel).1
      = (unprunedWeights exModel : ℚ) / (totalWeights exModel : ℚ) :=
  C2_aggregate_is_keep_fraction exModel (by norm_num [totalWeights, exModel, exLayer])

/-- Counting nonzeros of the masked weight tensor agrees with counting
nonzeros of the mask itself exactly when every weight is nonzero. -/
lemma countNonzero_maskedWeights (scores : List ℚ) :
    ∀ (weights : List ℚ) (t : ℚ), weights.length = scores.length →
      (∀ w ∈ weights, w ≠ 0) →
      countNonzero (GetGlobalSubnet scores weights t)
        = countNonzero (specMask scores t) := by
  induction scores with
  | nil =>
    intro weights t hlen _
    rw [List.length_nil, List.length_eq_zero] at hlen
    subst hlen
    rfl
  | cons s ss ih =>
    intro weights t hlen hw
    cases weights with
    | nil => simp at hlen
    | cons w ws =>
      have hlen' : ws.length = ss.length := by simpa using hlen
      have hw0 : w ≠ 0 := hw w (List.mem_cons_self w ws)
      have hws : ∀ x ∈ ws, x ≠ 0 := fun x hx => hw x (List.mem_cons_of_mem w hx)
      have hrec := ih ws t hlen' hws
      by_cases hts : t ≤ |s|
      · simp [GetGlobalSubnet, specMask, countNonzero, hts, hw0] at hrec ⊢
        simpa [GetGlobalSubnet, specMask] using hrec
      · simp [GetGlobalSubnet, specMask, countNonzero, hts] at hrec ⊢
        simpa [GetGlobalSubnet, specMask] using hrec

/-- C6 fails as stated: for a layer whose single score passes the threshold
but whose weight is exactly `0`, the report records `100` (the nonzero
count of the masked weight tensor is `0`), while
`100 * (1 - countNonZero(mask)/totalElements)` is `0`. -/
theorem C6_counterexample :
    (global_prune_rate [zLayer]).2 = [("z", 100)] ∧
    100 * (1 - (countNonzero (specMask zLayer.scores zLayer.prune_threshold) : ℚ)
        / (zLayer.scores.length : ℚ)) = 0 ∧
    (100 : ℚ) ≠ 0 := by
  refine ⟨?_, ?_, by norm_num⟩
  · rw [global_prune_rate_snd]
    norm_num [layerPruneRate, GetGlobalSubnet, countNonzero, zLayer]
  · norm_num [specMask, countNonzero, zLayer]

/-- C6 (amended): the end-of-training report is the mapping from each
prunable layer's name to `100 * (1 - countNonZero(mask ⊙ weights) /
totalElements)`; whenever every weight of every layer is nonzero (and
shapes match), this coincides with the claimed
`100 * (1 - countNonZero(mask)/totalElements)` per layer. -/
theorem C6_layer_report (m : List Layer)
    (hlen : ∀ L ∈ m, L.weight.length = L.scores.length)
    (hw : ∀ L ∈ m, ∀ w ∈ L.weight, w ≠ 0) :
    (global_prune_rate m).2
      = m.map (fun L => (L.name,
          100 * (1 - (countNonzero (specMask L.scores L.prune_threshold) : ℚ)
              / (L.scores.length : ℚ)))) := by
  rw [global_prune_rate_snd]
  apply List.map_congr_left
  intro L hL
  rw [layerPruneRate, countNonzero_maskedWeights L.scores L.weight L.prune_threshold
      (hlen L hL) (hw L hL)]

/-- Witness for the amended C6 on the concrete one-layer model with all
weights nonzero. -/
theorem C6_layer_report_witness :
    (global_prune_rate exModel).2
      = exModel.map (fun L => (L.name,
          100 * (1 - (countNonzero (specMask L.scores L.prune_threshold) : ℚ)
              / (L.scores.length : ℚ)))) :=
  C6_layer_report exModel
    (by intro L hL
        simp only [exModel, List.mem_singleton] at hL
        subst hL
        rfl)
    (by intro L hL w hw
        simp only [exModel, List.mem_singleton] at hL
        subst hL
        have hw1 : w = 1 := by simpa [exLayer] using hw
        rw [hw1]; norm_num)

/-- C7: the sparsity walk leaves the model exactly as it found it (scores,
weights and stored thresholds of every layer unchanged), and running
`global_prune_rate` a second time on the model the walk leaves behind
returns the identical aggregate value and per-layer percentages. -/
theorem C7_pure (m : List Layer) :
    (gprWalk m).2 = m ∧
    global_prune_rate ((gprWalk m).2) = global_prune_rate m := by
  have h := gprWalk_model m
  exact ⟨h, by rw [h]⟩

lemma finalizeRun_global (m : List Layer) (r : ℚ) :
    finalizeRun "GlobalSubnetConv" m r
      = { pickled := some (global_prune_rate m).2, csv_prune_rate := r,
          global_pr := (global_prune_rate m).1 } := rfl

/-- C8 fails as stated: on a two-layer model the aggregate value
`global_pr = 2/3` (equivalently the aggregate percentage `100/3`) is
computed, but what is handed to persistence is only the pickled per-layer
dictionary `[("a", 50), ("b", 25)]` and the CSV prune-rate column
`args.prune_rate = 3/10`; the aggregate equals none of those values. -/
theorem C8_counterexample :
    (finalizeRun "GlobalSubnetConv" exModel2 (3/10)).pickled
        = some [("a", 50), ("b", 25)] ∧
    (finalizeRun "GlobalSubnetConv" exModel2 (3/10)).csv_prune_rate = 3/10 ∧
    (finalizeRun "GlobalSubnetConv" exModel2 (3/10)).global_pr = 2/3 ∧
    ((2 : ℚ)/3 ≠ 3/10 ∧ (2 : ℚ)/3 ≠ 50 ∧ (2 : ℚ)/3 ≠ 25 ∧
      100 * (1 - (2 : ℚ)/3) ≠ 3/10 ∧ 100 * (1 - (2 : ℚ)/3) ≠ 50 ∧
      100 * (1 - (2 : ℚ)/3) ≠ 25) := by
  rw [finalizeRun_global]
  refine ⟨?_, rfl, ?_, by norm_num⟩
  · show some (global_prune_rate exModel2).2 = some [("a", 50), ("b", 25)]
    rw [global_prune_rate_snd]
    norm_num [layerPruneRate, GetGlobalSubnet, countNonzero, exModel2]
  · show (global_prune_rate exModel2).1 = 2/3
    rw [global_prune_rate_fst]
    norm_num [unprunedWeights, totalWeights, GetGlobalSubnet, countNonzero, exModel2]

/-- C8 (amended): at the end of a global-mode run the per-layer
layer-name → percentage mapping of the single `global_prune_rate` call is
pickled to disk, the CSV row's prune-rate column records `args.prune_rate`
(the final target), and the computed aggregate is held only in the local
`global_pr`, which is printed but not handed to persistence. -/
theorem C8_persistence (m : List Layer) (r : ℚ) :
    (finalizeRun "GlobalSubnetConv" m r).pickled = some (global_prune_rate m).2 ∧
    (finalizeRun "GlobalSubnetConv" m r).csv_prune_rate = r ∧
    (finalizeRun "GlobalSubnetConv" m r).global_pr = (global_prune_rate m).1 :=
  ⟨rfl, rfl, rfl⟩

/-! ### Early-termination machinery for C10 -/

lemma runUpTo_zero (ct : String) (E : ℕ) (f : ℚ) (sp acc : ℕ → ℚ) :
    runUpTo ct E f sp acc 0 = Except.ok ⟨f, 0⟩ := rfl

lemma runUpTo_succ (ct : String) (E : ℕ) (f : ℚ) (sp acc : ℕ → ℚ) (n : ℕ) :
    runUpTo ct E f sp acc (n + 1)
      = (runUpTo ct E f sp acc n).bind (runEpoch ct E f sp acc n) := rfl

lemma bestAfter_mono (acc : ℕ → ℚ) {m n : ℕ} (h : m ≤ n) :
    bestAfter acc m ≤ bestAfter acc n := by
  induction n, h using Nat.le_induction with
  | base => exact le_refl _
  | succ n hmn ih => exact le_trans ih (le_max_right _ _)

lemma runEpoch_ok (ct : String) (E : ℕ) (f : ℚ) (sp acc : ℕ → ℚ) (e : ℕ)
    (s : LoopState) (he : e ≤ 1) :
    runEpoch ct E f sp acc e s
      = Except.ok ⟨epochRate ct E f sp e s.prune_rate, max (acc e) s.best_acc1⟩ := by
  rw [runEpoch, if_neg]
  rintro ⟨-, h2⟩
  omega

lemma runUpTo_two (ct : String) (E : ℕ) (f : ℚ) (sp acc : ℕ → ℚ) :
    runUpTo ct E f sp acc 2
      = Except.ok ⟨epochRate ct E f sp 1 (epochRate ct E f sp 0 f),
          max (acc 1) (max (acc 0) 0)⟩ := by
  rw [show (2 : ℕ) = 1 + 1 from rfl, runUpTo_succ,
      show (1 : ℕ) = 0 + 1 from rfl, runUpTo_succ, runUpTo_zero]
  simp only [Except.bind]
  rw [runEpoch_ok ct E f sp acc 0 ⟨f, 0⟩ (by omega)]
  simp only [Except.bind]
  rw [runEpoch_ok ct E f sp acc 1 _ (by omega)]

lemma runUpTo_error_from_two (ct : String) (E : ℕ) (f : ℚ) (sp acc : ℕ → ℚ)
    (hb : bestAfter acc 3 < 2) :
    ∀ n, 3 ≤ n → runUpTo ct E f sp acc n = Except.error 2 := by
  have hb' : max (acc 2) (max (acc 1) (max (acc 0) 0)) < 2 := hb
  have h3 : runUpTo ct E f sp acc 3 = Except.error 2 := by
    rw [show (3 : ℕ) = 2 + 1 from rfl, runUpTo_succ, runUpTo_two]
    simp only [Except.bind]
    rw [runEpoch, if_pos ⟨hb', by omega⟩]
  have hall : ∀ k, runUpTo ct E f sp acc (3 + k) = Except.error 2 := by
    intro k
    induction k with
    | zero => exact h3
    | succ k ih =>
      rw [show 3 + (k + 1) = (3 + k) + 1 by omega, runUpTo_succ, ih]
      rfl
  intro n hn
  have hsplit : n = 3 + (n - 3) := by omega
  rw [hsplit]
  exact hall _

/-- C10: if after some epoch of index greater than 1 the best validation
top-1 accuracy seen so far is below 2, the run raises `SystemExit`
("Terminating early: Network is not learning", main.py lines 218-219):
the loop aborts at epoch 2, and none of the finalization steps happen —
no sparsity report is computed, no prune-rate dictionary is pickled, no
CSV row is written (the run result is an `earlyExit`, never a
`completed` output). -/
theorem C10_early_termination (ct : String) (E : ℕ) (f : ℚ) (sp acc : ℕ → ℚ)
    (epochs e : ℕ) (model : List Layer)
    (he : 1 < e) (hn : e < epochs) (hb : bestAfter acc (e + 1) < 2) :
    main_worker ct E f sp acc epochs model = RunResult.earlyExit 2 ∧
    ∀ out, main_worker ct E f sp acc epochs model ≠ RunResult.completed out := by
  have h3 : bestAfter acc 3 < 2 :=
    lt_of_le_of_lt (bestAfter_mono acc (by omega)) hb
  have hrun := runUpTo_error_from_two ct E f sp acc h3 epochs (by omega)
  refine ⟨?_, ?_⟩
  · simp only [main_worker, hrun]
  · intro out h
    simp only [main_worker, hrun] at h
    exact RunResult.noConfusion h

/-- Witness for C10: with every validation accuracy 0, a 5-epoch run exits
early at epoch 2. -/
theorem C10_early_termination_witness :
    main_worker "GlobalSubnetConv" 10 (3/10) (fun _ => 0) (fun _ => 0) 5 exModel
      = RunResult.earlyExit 2 :=
  (C10_early_termination "GlobalSubnetConv" 10 (3/10) (fun _ => 0) (fun _ => 0)
      5 2 exModel (by omega) (by omega)
      (by
        have h : bestAfter (fun _ => (0 : ℚ)) 3 = max 0 (max 0 (max 0 0)) := rfl
        rw [h]
        norm_num)).1

end Biprop
